import Mathlib

/-!
Verification of the InsightLens chunking and retrieval pipeline.

This file gives a shallow embedding of `text_chunker.py`,
`vector_store_manager.py` and the `configure` command of `main.py`.
Python strings are modelled as `List Char` (Python `len` = number of code
points = `List.length`); fallible code returns `Except`; the persistent
vector store is explicit state (`Store`); the underlying index call of
`query_store` is a function parameter so both its success and failure
behaviours can be examined.
-/

/-- Python whitespace test (`str.strip` / `str.isspace`), restricted to the
ASCII whitespace characters: space, tab, newline, carriage return,
vertical tab (11) and form feed (12). -/
def pyIsSpace (c : Char) : Bool :=
  c == ' ' || c == '\t' || c == '\n' || c == '\r' ||
    c == Char.ofNat 11 || c == Char.ofNat 12

/-- Python `s.strip()`: drop whitespace from both ends. -/
def pyStrip (l : List Char) : List Char :=
  ((l.dropWhile pyIsSpace).reverse.dropWhile pyIsSpace).reverse

/-- Python `s.split(sep)` for the two-character separator `"\n\n"`:
split on each leftmost non-overlapping occurrence. -/
def splitAux : List Char → List Char → List (List Char)
  | [], acc => [acc.reverse]
  | [c], acc => [(c :: acc).reverse]
  | c :: c2 :: rest, acc =>
    if c = '\n' ∧ c2 = '\n' then acc.reverse :: splitAux rest []
    else splitAux (c2 :: rest) (c :: acc)

/-- `text.split("\n\n")` (text_chunker.py line 7). -/
def pySplit (l : List Char) : List (List Char) :=
  splitAux l []

/-- `[p.strip() for p in text.split("\n\n") if p.strip()]`
(text_chunker.py line 7). -/
def pyParagraphs (text : List Char) : List (List Char) :=
  ((pySplit text).map pyStrip).filter (fun p => !p.isEmpty)

/-- Error raised by `range(0, n, 0)` in Python (`ValueError`). -/
inductive ChunkError where
  | valueError
  deriving DecidableEq

/-- Python `range(0, stop, stride)` for a positive stride: the multiples of
`stride` below `stop`, of which there are `(stop + stride - 1) / stride`. -/
def rangePos (stop stride : Nat) : List Nat :=
  (List.range ((stop + stride - 1) / stride)).map (fun k => k * stride)

/-- The hard-split loop of text_chunker.py (lines 18-19, 27-28, 33-34):
`for i in range(0, len(current_chunk), chunk_size - chunk_overlap):
all_chunks.append(current_chunk[i:i + chunk_size])`.
A zero stride raises `ValueError` (Python `range` rejects step 0); a
negative stride makes `range` empty, so no window is emitted. -/
def hardSplitWindows (cur : List Char) (s ov : Nat) : Except ChunkError (List (List Char)) :=
  if (s : Int) - (ov : Int) = 0 then .error .valueError
  else if (s : Int) - (ov : Int) < 0 then .ok []
  else .ok ((rangePos cur.length ((s : Int) - (ov : Int)).toNat).map
    (fun i => (cur.drop i).take s))

/-- Loop state of `simple_chunker`: the emitted chunks and the running
buffer `current_chunk`. -/
structure ChunkState where
  all_chunks : List (List Char)
  current : List Char
  deriving DecidableEq

/-- text_chunker.py lines 16-24: flush the old buffer (hard-splitting it if
oversized), then start the new buffer from the overflowing paragraph. -/
def flushOld (s ov : Nat) (st : ChunkState) (p : List Char) : Except ChunkError ChunkState :=
  if st.current.isEmpty then .ok ⟨st.all_chunks, p⟩
  else if st.current.length > s then
    (hardSplitWindows st.current s ov).map (fun ws => ⟨st.all_chunks ++ ws, p⟩)
  else .ok ⟨st.all_chunks ++ [st.current], p⟩

/-- text_chunker.py lines 26-29: if the freshly started buffer (the new
paragraph) is itself oversized, hard-split it at once and clear the buffer. -/
def splitNew (s ov : Nat) (st : ChunkState) : Except ChunkError ChunkState :=
  if st.current.length > s then
    (hardSplitWindows st.current s ov).map (fun ws => ⟨st.all_chunks ++ ws, []⟩)
  else .ok st

/-- One iteration of the paragraph loop (text_chunker.py lines 12-29). -/
def stepPara (s ov : Nat) (st : ChunkState) (p : List Char) : Except ChunkError ChunkState :=
  if st.current.length + p.length + 1 < s then
    .ok ⟨st.all_chunks, st.current ++ (if st.current.isEmpty then [] else [' ']) ++ p⟩
  else
    flushOld s ov st p >>= splitNew s ov

/-- The paragraph loop (text_chunker.py lines 12-29). -/
def processParas (s ov : Nat) : ChunkState → List (List Char) → Except ChunkError ChunkState
  | st, [] => .ok st
  | st, p :: ps => stepPara s ov st p >>= fun st2 => processParas s ov st2 ps

/-- Final flush of a remaining buffer (text_chunker.py lines 31-36). -/
def finalFlush (s ov : Nat) (st : ChunkState) : Except ChunkError (List (List Char)) :=
  if st.current.isEmpty then .ok st.all_chunks
  else if st.current.length > s then
    (hardSplitWindows st.current s ov).map (fun ws => st.all_chunks ++ ws)
  else .ok (st.all_chunks ++ [st.current])

/-- `simple_chunker` (text_chunker.py lines 3-38). -/
def simple_chunker (text : List Char) (chunk_size chunk_overlap : Nat) :
    Except ChunkError (List (List Char)) :=
  if text.isEmpty then .ok []
  else
    processParas chunk_size chunk_overlap ⟨[], []⟩ (pyParagraphs text) >>=
      fun st =>
        (finalFlush chunk_size chunk_overlap st).map
          (fun chunks => chunks.filter (fun c => !(pyStrip c).isEmpty))

/-- Chunking-relevant part of `APP_STATE` (main.py lines 33-40). -/
structure AppConfig where
  chunk_size : Nat
  chunk_overlap : Nat
  top_k_retrieval : Nat
  deriving DecidableEq

/-- main.py line 37-39: defaults `chunk_size = 1000`, `chunk_overlap = 150`,
`top_k_retrieval = 3`. -/
def defaultAppConfig : AppConfig :=
  ⟨1000, 150, 3⟩

/-- The `configure` command (main.py lines 243-263): each supplied option is
stored into `APP_STATE` unconditionally; there is no validation and no
error path. -/
def configure (st : AppConfig) (chunk_size chunk_overlap top_k : Option Nat) : AppConfig :=
  ⟨chunk_size.getD st.chunk_size, chunk_overlap.getD st.chunk_overlap,
    top_k.getD st.top_k_retrieval⟩

/-- Concrete stand-in for a Python metadata dict (string keys and values),
used to instantiate the store model in witnesses. -/
abbrev KVMeta : Type :=
  List (String × String)

/-- Pure form of the hard-split window list, used once the stride is known
positive (`chunk_overlap < chunk_size`). -/
def winList (cur : List Char) (s ov : Nat) : List (List Char) :=
  (rangePos cur.length (s - ov)).map (fun i => (cur.drop i).take s)

/-- Pure form of `flushOld` for a positive stride. -/
def flushOldP (s ov : Nat) (st : ChunkState) (p : List Char) : ChunkState :=
  if st.current.isEmpty then ⟨st.all_chunks, p⟩
  else if st.current.length > s then ⟨st.all_chunks ++ winList st.current s ov, p⟩
  else ⟨st.all_chunks ++ [st.current], p⟩

/-- Pure form of `splitNew` for a positive stride. -/
def splitNewP (s ov : Nat) (st : ChunkState) : ChunkState :=
  if st.current.length > s then ⟨st.all_chunks ++ winList st.current s ov, []⟩
  else st

/-- Pure form of `stepPara` for a positive stride. -/
def stepParaP (s ov : Nat) (st : ChunkState) (p : List Char) : ChunkState :=
  if st.current.length + p.length + 1 < s then
    ⟨st.all_chunks, st.current ++ (if st.current.isEmpty then [] else [' ']) ++ p⟩
  else splitNewP s ov (flushOldP s ov st p)

/-- Pure form of `finalFlush` for a positive stride. -/
def finalFlushP (s ov : Nat) (st : ChunkState) : List (List Char) :=
  if st.current.isEmpty then st.all_chunks
  else if st.current.length > s then st.all_chunks ++ winList st.current s ov
  else st.all_chunks ++ [st.current]

/-- Pure form of `simple_chunker` for a positive stride. -/
def chunkerP (text : List Char) (s ov : Nat) : List (List Char) :=
  if text.isEmpty then []
  else
    (finalFlushP s ov ((pyParagraphs text).foldl (stepParaP s ov) ⟨[], []⟩)).filter
      (fun c => !(pyStrip c).isEmpty)

/-- Number of chunks `simple_chunker` returns on a whitespace-free text of
length `n`: one merged chunk when it fits, otherwise one hard-split window
per stride step. -/
def countFor (n s ov : Nat) : Nat :=
  if n = 0 then 0
  else if n ≤ s then 1
  else (n + (s - ov) - 1) / (s - ov)

/-- One stored record of a ChromaDB collection (vector_store_manager.py):
an id, an embedding, the original chunk text and its metadata. The
embedding and metadata payloads are never inspected by the manager, so
they are type parameters. -/
structure Record (α μ : Type) where
  rid : String
  emb : α
  doc : String
  meta : μ
  deriving DecidableEq

/-- The persistent store: named collections of records, in creation order. -/
abbrev Store (α μ : Type) : Type :=
  List (String × List (Record α μ))

/-- Outcome reported by `add_documents_to_store`: either the batch was
written, or the length validation failed and the call was a no-op
(the Python function prints an error and returns early, lines 29-31). -/
inductive AddResult where
  | success
  | validationError
  deriving DecidableEq

/-- `get_or_create_collection` (vector_store_manager.py lines 12-20):
return the existing collection, or create an empty one. -/
def get_or_create_collection {α μ : Type} (store : Store α μ) (collection_name : String) :
    Store α μ × List (Record α μ) :=
  match List.lookup collection_name store with
  | some coll => (store, coll)
  | none => (store ++ [(collection_name, [])], [])

/-- The ids produced by `[str(uuid.uuid4()) for _ in chunks]`
(vector_store_manager.py lines 39 and 42). The uuid draws are modelled by
an explicit supply `Nat → String`; global uniqueness of uuid4 becomes a
freshness hypothesis on the supply where a claim needs it. -/
def genIds (supply : Nat → String) (n : Nat) : List String :=
  (List.range n).map supply

/-- vector_store_manager.py lines 38-42: omitted `doc_ids` or a length
mismatch with `chunks` discards the entire caller-supplied list and
generates fresh ids for every chunk. -/
def resolveIds (supply : Nat → String) (n : Nat) (doc_ids : Option (List String)) :
    List String :=
  match doc_ids with
  | none => genIds supply n
  | some ds => if ds.length ≠ n then genIds supply n else ds

/-- vector_store_manager.py lines 46-49: copy, append empty mappings while
shorter than `chunks`, then slice to `len(chunks)`. -/
def padMetas {μ : Type} (m0 : μ) (n : Nat) (ms : List μ) : List μ :=
  (ms ++ List.replicate (n - ms.length) m0).take n

/-- vector_store_manager.py lines 35-36 and 44-49: omitted `metadatas`
becomes `[{}] * len(chunks)`; a length mismatch is padded with empty
mappings and truncated of any excess. `m0` models the empty mapping. -/
def resolveMetas {μ : Type} (m0 : μ) (n : Nat) (metadatas : Option (List μ)) : List μ :=
  match metadatas with
  | none => List.replicate n m0
  | some ms => if ms.length ≠ n then padMetas m0 n ms else ms

/-- Pair the resolved ids, chunks, embeddings and metadatas into records
(the aligned arguments of `collection.add`, lines 52-57). -/
def mkRecords {α μ : Type} (ids : List String) (chunks : List String)
    (embeddings : List α) (metas : List μ) : List (Record α μ) :=
  (ids.zip (chunks.zip (embeddings.zip metas))).map
    (fun q => ⟨q.1, q.2.2.1, q.2.1, q.2.2.2⟩)

/-- ChromaDB write semantics for one record: an id equal to an existing
record's id replaces it, otherwise the record is appended (upsert,
spec section 4.2). -/
def upsertRecord {α μ : Type} (coll : List (Record α μ)) (r : Record α μ) :
    List (Record α μ) :=
  if coll.any (fun x => x.rid == r.rid) then
    coll.map (fun x => if x.rid == r.rid then r else x)
  else coll ++ [r]

/-- Replace the contents of a named collection in the store. -/
def setCollection {α μ : Type} (store : Store α μ) (collection_name : String)
    (coll : List (Record α μ)) : Store α μ :=
  store.map (fun e => if e.1 == collection_name then (e.1, coll) else e)

/-- `add_documents_to_store` (vector_store_manager.py lines 22-61).
`supply` models the uuid4 generator and `m0` the empty metadata mapping.
The length validation (lines 29-31) reports a validation error and leaves
the store untouched; otherwise ids and metadatas are normalized and the
records are written to the (get-or-created) collection. -/
def add_documents_to_store {α μ : Type} (supply : Nat → String) (m0 : μ)
    (store : Store α μ) (collection_name : String) (chunks : List String)
    (embeddings : List α) (metadatas : Option (List μ)) (doc_ids : Option (List String)) :
    Store α μ × AddResult :=
  if chunks.isEmpty || embeddings.isEmpty || chunks.length != embeddings.length then
    (store, .validationError)
  else
    let gc := get_or_create_collection store collection_name
    let n := chunks.length
    let ids := resolveIds supply n doc_ids
    let metas := resolveMetas m0 n metadatas
    let coll2 := (mkRecords ids chunks embeddings metas).foldl upsertRecord gc.2
    (setCollection gc.1 collection_name coll2, .success)

/-- Raw response of `collection.query` (the ChromaDB index): per query
embedding, parallel lists of ids, optional documents, metadatas and
distances. One query embedding is sent, so only the head entry is read. -/
structure Raw (μ δ : Type) where
  ids : List (List String)
  documents : List (List (Option String))
  metadatas : List (List μ)
  distances : List (List δ)

/-- One reshaped query hit (vector_store_manager.py lines 98-102). -/
structure QueryResult (μ δ : Type) where
  document : String
  metadata : μ
  distance : Option δ
  deriving DecidableEq

/-- vector_store_manager.py line 93: `results["documents"][0][i]` when the
documents field and its head row are non-empty, else `None`. -/
def docAt (documents : List (List (Option String))) (i : Nat) : Option String :=
  match documents with
  | [] => none
  | l0 :: _ => if l0.isEmpty then none else (l0.get? i).join

/-- vector_store_manager.py line 94: metadata of hit `i`, `{}` when absent. -/
def metaAt {μ : Type} (m0 : μ) (metadatas : List (List μ)) (i : Nat) : μ :=
  match metadatas with
  | [] => m0
  | l0 :: _ => if l0.isEmpty then m0 else l0.getD i m0

/-- vector_store_manager.py line 95: distance of hit `i`, `None` when absent. -/
def distAt {δ : Type} (distances : List (List δ)) (i : Nat) : Option δ :=
  match distances with
  | [] => none
  | l0 :: _ => if l0.isEmpty then none else l0.get? i

/-- vector_store_manager.py lines 85-107: an empty id row short-circuits to
the empty result; otherwise each hit with a present document is reshaped
and hits whose document is missing are skipped. -/
def processRaw {μ δ : Type} (m0 : μ) (raw : Raw μ δ) : List (QueryResult μ δ) :=
  match raw.ids with
  | [] => []
  | ids0 :: _ =>
    if ids0.isEmpty then []
    else
      (List.range ids0.length).filterMap (fun i =>
        match docAt raw.documents i with
        | none => none
        | some d => some ⟨d, metaAt m0 raw.metadatas i, distAt raw.distances i⟩)

/-- `query_store` (vector_store_manager.py lines 63-111). `backend` models
the underlying `collection.query` index call, which may fail; `none` in
the result models Python returning `None` ("could not query"), `some rs`
models a returned result list. The collection is get-or-created first; a
zero-record collection answers `some []` without touching the index. -/
def query_store {α μ δ : Type} (m0 : μ)
    (backend : List (Record α μ) → α → Nat → Except Unit (Raw μ δ))
    (store : Store α μ) (collection_name : String) (query_embedding : α) (top_k : Nat) :
    Store α μ × Option (List (QueryResult μ δ)) :=
  let gc := get_or_create_collection store collection_name
  if gc.2.length = 0 then (gc.1, some [])
  else
    match backend gc.2 query_embedding (min top_k gc.2.length) with
    | .error _ => (gc.1, none)
    | .ok raw => (gc.1, some (processRaw m0 raw))

/-- Reduction of `>>=` on a successful `Except`. -/
theorem exbind_ok {ε α β : Type} (a : α) (f : α → Except ε β) :
    (Except.ok a : Except ε α) >>= f = f a :=
  rfl

/-- Reduction of `Except.map` on a successful `Except`. -/
theorem exmap_ok {ε α β : Type} (f : α → β) (a : α) :
    (Except.ok a : Except ε α).map f = .ok (f a) :=
  rfl

/-- With a valid configuration (`ov < s`) the hard-split stride is positive
and the window loop runs without error, producing `winList`. -/
theorem hardSplitWindows_of_lt {s ov : Nat} (h : ov < s) (cur : List Char) :
    hardSplitWindows cur s ov = .ok (winList cur s ov) := by
  unfold hardSplitWindows winList
  have h0 : ¬((s : Int) - (ov : Int) = 0) := by omega
  have h1 : ¬((s : Int) - (ov : Int) < 0) := by omega
  have h2 : ((s : Int) - (ov : Int)).toNat = s - ov := by omega
  rw [if_neg h0, if_neg h1, h2]

theorem flushOld_eq {s ov : Nat} (h : ov < s) (st : ChunkState) (p : List Char) :
    flushOld s ov st p = .ok (flushOldP s ov st p) := by
  unfold flushOld flushOldP
  by_cases h1 : st.current.isEmpty
  · simp [h1]
  · by_cases h2 : st.current.length > s
    · simp [h1, h2, hardSplitWindows_of_lt h, exmap_ok]
    · simp [h1, h2]

theorem splitNew_eq {s ov : Nat} (h : ov < s) (st : ChunkState) :
    splitNew s ov st = .ok (splitNewP s ov st) := by
  unfold splitNew splitNewP
  by_cases h2 : st.current.length > s
  · simp [h2, hardSplitWindows_of_lt h, exmap_ok]
  · simp [h2]

theorem stepPara_eq {s ov : Nat} (h : ov < s) (st : ChunkState) (p : List Char) :
    stepPara s ov st p = .ok (stepParaP s ov st p) := by
  unfold stepPara stepParaP
  by_cases h1 : st.current.length + p.length + 1 < s
  · simp [h1]
  · rw [if_neg h1, if_neg h1, flushOld_eq h, exbind_ok, splitNew_eq h]

theorem processParas_eq {s ov : Nat} (h : ov < s) (ps : List (List Char)) :
    ∀ st, processParas s ov st ps = .ok (ps.foldl (stepParaP s ov) st) := by
  induction ps with
  | nil => intro st; rfl
  | cons p ps ih =>
    intro st
    rw [show processParas s ov st (p :: ps)
        = stepPara s ov st p >>= (fun st2 => processParas s ov st2 ps) from rfl]
    rw [stepPara_eq h, exbind_ok, ih]
    rfl

theorem finalFlush_eq {s ov : Nat} (h : ov < s) (st : ChunkState) :
    finalFlush s ov st = .ok (finalFlushP s ov st) := by
  unfold finalFlush finalFlushP
  by_cases h1 : st.current.isEmpty
  · simp [h1]
  · by_cases h2 : st.current.length > s
    · simp [h1, h2, hardSplitWindows_of_lt h, exmap_ok]
    · simp [h1, h2]

/-- With a valid configuration the chunker never errors and agrees with its
pure form `chunkerP`. -/
theorem chunker_eq {s ov : Nat} (h : ov < s) (text : List Char) :
    simple_chunker text s ov = .ok (chunkerP text s ov) := by
  unfold simple_chunker chunkerP
  by_cases ht : text.isEmpty = true
  · simp [ht]
  · rw [if_neg ht, if_neg ht, processParas_eq h, exbind_ok, finalFlush_eq h, exmap_ok]

theorem winList_length_le (cur : List Char) (s ov : Nat) :
    ∀ w ∈ winList cur s ov, w.length ≤ s := by
  intro w hw
  rcases List.mem_map.mp hw with ⟨i, hi, rfl⟩
  exact List.length_take_le _ _

theorem flushOldP_inv {s ov : Nat} (st : ChunkState) (p : List Char)
    (hinv : ∀ c ∈ st.all_chunks, c.length ≤ s) :
    ∀ c ∈ (flushOldP s ov st p).all_chunks, c.length ≤ s := by
  unfold flushOldP
  by_cases h1 : st.current.isEmpty
  · simpa [h1] using hinv
  · by_cases h2 : st.current.length > s
    · rw [if_neg h1, if_pos h2]
      intro c hc
      rcases List.mem_append.mp hc with hc | hc
      · exact hinv c hc
      · exact winList_length_le _ _ _ c hc
    · rw [if_neg h1, if_neg h2]
      intro c hc
      rcases List.mem_append.mp hc with hc | hc
      · exact hinv c hc
      · rw [List.mem_singleton.mp hc]
        omega

/-- Claim C1 (evaluation at the failing input): `configure` stores
`chunk_size = chunk_overlap = 10` with no rejection of any kind, and the
chunker then reaches the hard-split loop with the invalid stride: on an
11-character single-paragraph text, stride `0` raises `ValueError`
mid-chunk (Python `range(0, 11, 0)`), and with `chunk_overlap = 11` the
negative stride silently discards the whole text. No `ConfigurationError`
exists anywhere in the code. -/
theorem c1_overlap_not_rejected_at_configure :
    configure defaultAppConfig (some 10) (some 10) none = ⟨10, 10, 3⟩
      ∧ simple_chunker ("abcdefghijk".toList) 10 10 = .error .valueError
      ∧ simple_chunker ("abcdefghijk".toList) 10 11 = .ok [] := by
  refine ⟨rfl, rfl, rfl⟩

/-- Claim C9: chunking the empty string gives the empty list (for every
size and overlap, no error), and chunking `"short text"` with
`chunk_size = 1000` (default overlap 150) gives the single chunk equal to
the trimmed input. -/
theorem c9_empty_text_and_short_text :
    (∀ s ov : Nat, simple_chunker [] s ov = .ok [])
      ∧ simple_chunker ("short text".toList) 1000 150 = .ok ["short text".toList]
      ∧ pyStrip ("short text".toList) = "short text".toList := by
  refine ⟨fun s ov => rfl, rfl, rfl⟩

/-- Claim C3 counterexample: `chunk_overlap = 0`, text `"a bc    de"`
(one 10-character paragraph). With `chunk_size = 3` the hard split emits 4
windows, all kept; with the smaller `chunk_size = 2` it emits 5 windows of
which two are all-space and are dropped by the final filter, leaving only
3 chunks. So the chunk count is not non-decreasing as `chunk_size`
decreases: sizes `s1 = 3 > s2 = 2` give counts `4 > 3`. -/
theorem c3_counterexample :
    simple_chunker ("a bc    de".toList) 3 0 =
        .ok ["a b".toList, "c  ".toList, "  d".toList, "e".toList]
      ∧ simple_chunker ("a bc    de".toList) 2 0 =
        .ok ["a ".toList, "bc".toList, "de".toList]
      ∧ ¬ (4 : Nat) ≤ 3 := by
  refine ⟨rfl, rfl, by decide⟩

/-- Claim C5: an `add` call with empty `chunks`, empty `embeddings` or
mismatched lengths is a pure no-op that reports a validation error: the
function returns normally (no exception aborts anything), the store is
returned unchanged, and nothing is written. -/
theorem c5_invalid_add_is_noop {α μ : Type} (supply : Nat → String) (m0 : μ)
    (store : Store α μ) (collection_name : String) (chunks : List String)
    (embeddings : List α) (metadatas : Option (List μ)) (doc_ids : Option (List String))
    (h : chunks = [] ∨ embeddings = [] ∨ chunks.length ≠ embeddings.length) :
    add_documents_to_store supply m0 store collection_name chunks embeddings metadatas doc_ids
      = (store, .validationError) := by
  unfold add_documents_to_store
  rcases h with h | h | h
  · simp [h]
  · simp [h]
  · have hb : (chunks.length != embeddings.length) = true := by
      simpa [bne_iff_ne] using h
    simp [hb]

/-- Claim C5 witness: adding zero chunks with one embedding to the empty
store is rejected as a validation error and leaves the store empty. -/
theorem c5_witness :
    (([] : List String) = [] ∨ ([(1 : Int)] : List Int) = []
        ∨ ([] : List String).length ≠ [(1 : Int)].length)
      ∧ add_documents_to_store (fun k => toString k) ([] : KVMeta)
          ([] : Store Int KVMeta) "docs" [] [(1 : Int)] none none
        = ([], .validationError) :=
  ⟨Or.inl rfl,
    c5_invalid_add_is_noop (fun k => toString k) ([] : KVMeta) ([] : Store Int KVMeta)
      "docs" [] [(1 : Int)] none none (Or.inl rfl)⟩

/-- Claim C6: querying a collection that holds zero records, including a
collection name never written or created, returns the empty result set
`some []` and does not fail: the collection is get-or-created first, so a
never-seen name is not an error, whatever the underlying index does. -/
theorem c6_query_empty_collection_is_empty_result {α μ δ : Type} (m0 : μ)
    (backend : List (Record α μ) → α → Nat → Except Unit (Raw μ δ))
    (store : Store α μ) (collection_name : String) (query_embedding : α) (top_k : Nat)
    (h : List.lookup collection_name store = none
      ∨ List.lookup collection_name store = some []) :
    (query_store m0 backend store collection_name query_embedding top_k).2 = some [] := by
  unfold query_store get_or_create_collection
  rcases h with h | h <;> simp [h]

/-- Claim C6 witness: querying the never-written name "docs" in the empty
store, with an index backend that always fails, still returns `some []`
because the zero-record short-circuit answers before the index is hit. -/
theorem c6_witness :
    (List.lookup "docs" ([] : Store Int KVMeta) = none
        ∨ List.lookup "docs" ([] : Store Int KVMeta) = some [])
      ∧ (query_store ([] : KVMeta)
          ((fun _ _ _ => Except.error ()) :
            List (Record Int KVMeta) → Int → Nat → Except Unit (Raw KVMeta Int))
          ([] : Store Int KVMeta) "docs" (0 : Int) 5).2 = some [] :=
  ⟨Or.inl rfl,
    c6_query_empty_collection_is_empty_result ([] : KVMeta)
      ((fun _ _ _ => Except.error ()) :
        List (Record Int KVMeta) → Int → Nat → Except Unit (Raw KVMeta Int))
      ([] : Store Int KVMeta) "docs" (0 : Int) 5 (Or.inl rfl)⟩

/-- Claim C7: when the underlying index call fails on a non-empty
collection, `query_store` reports the distinguished unavailable result
`none` (Python `None`), which differs from every successful result
`some rs` and in particular from the empty result `some []` returned for
a zero-record collection, so the calling `ask` flow can tell "no relevant
context" apart from "could not query". -/
theorem c7_backend_failure_reported_unavailable {α μ δ : Type} (m0 : μ)
    (backend : List (Record α μ) → α → Nat → Except Unit (Raw μ δ))
    (store : Store α μ) (collection_name : String) (query_embedding : α) (top_k : Nat)
    (coll : List (Record α μ))
    (hlk : List.lookup collection_name store = some coll) (hne : coll ≠ [])
    (hfail : backend coll query_embedding (min top_k coll.length) = .error ()) :
    (query_store m0 backend store collection_name query_embedding top_k).2 = none
      ∧ ∀ rs : List (QueryResult μ δ),
          (none : Option (List (QueryResult μ δ))) ≠ some rs := by
  constructor
  · unfold query_store get_or_create_collection
    simp [hlk, hne, hfail]
  · intro rs h
    exact Option.noConfusion h

/-- Claim C7 witness: a one-record collection with a failing index backend
yields the unavailable result `none`, distinct from every `some rs`. -/
theorem c7_witness :
    (List.lookup "docs"
        ([("docs", [⟨"id0", (0 : Int), "text", ([] : KVMeta)⟩])] : Store Int KVMeta)
      = some [⟨"id0", (0 : Int), "text", ([] : KVMeta)⟩])
      ∧ ([⟨"id0", (0 : Int), "text", ([] : KVMeta)⟩] : List (Record Int KVMeta)) ≠ []
      ∧ (query_store ([] : KVMeta)
          ((fun _ _ _ => Except.error ()) :
            List (Record Int KVMeta) → Int → Nat → Except Unit (Raw KVMeta Int))
          ([("docs", [⟨"id0", (0 : Int), "text", ([] : KVMeta)⟩])] : Store Int KVMeta)
          "docs" (0 : Int) 5).2 = none := by
  refine ⟨rfl, by simp, ?_⟩
  exact (c7_backend_failure_reported_unavailable ([] : KVMeta)
    ((fun _ _ _ => Except.error ()) :
      List (Record Int KVMeta) → Int → Nat → Except Unit (Raw KVMeta Int))
    ([("docs", [⟨"id0", (0 : Int), "text", ([] : KVMeta)⟩])] : Store Int KVMeta)
    "docs" (0 : Int) 5 [⟨"id0", (0 : Int), "text", ([] : KVMeta)⟩]
    rfl (by simp) rfl).1

/-- Claim C4: on an `add` with valid chunks and embeddings, omitted or
length-mismatched `doc_ids` are replaced by freshly generated ids for
every chunk — none of the caller-supplied ids is reused (given that the
uuid supply avoids them, modelling uuid4 global uniqueness) — and omitted
or length-mismatched `metadatas` are padded with empty mappings up to
`len(chunks)` and truncated of any excess; in all these cases the add
still succeeds. -/
theorem c4_alignment_is_normalized {α μ : Type} (supply : Nat → String) (m0 : μ)
    (store : Store α μ) (collection_name : String) (chunks : List String)
    (embeddings : List α) (ds : List String) (ms : List μ)
    (hc : chunks ≠ []) (he : embeddings ≠ []) (hlen : chunks.length = embeddings.length)
    (hds : ds.length ≠ chunks.length) (hms : ms.length ≠ chunks.length)
    (hfresh : ∀ k : Nat, k < chunks.length → supply k ∉ ds) :
    resolveIds supply chunks.length (some ds) = genIds supply chunks.length
      ∧ resolveIds supply chunks.length none = genIds supply chunks.length
      ∧ (∀ x ∈ resolveIds supply chunks.length (some ds), x ∉ ds)
      ∧ resolveMetas m0 chunks.length (some ms)
          = ms.take chunks.length ++ List.replicate (chunks.length - ms.length) m0
      ∧ (resolveMetas m0 chunks.length (some ms)).length = chunks.length
      ∧ resolveMetas m0 chunks.length none = List.replicate chunks.length m0
      ∧ (add_documents_to_store supply m0 store collection_name chunks embeddings
          (some ms) (some ds)).2 = .success
      ∧ (add_documents_to_store supply m0 store collection_name chunks embeddings
          none none).2 = .success := by
  have hids : resolveIds supply chunks.length (some ds) = genIds supply chunks.length := by
    simp [resolveIds, hds]
  have hmeta : resolveMetas m0 chunks.length (some ms)
      = ms.take chunks.length ++ List.replicate (chunks.length - ms.length) m0 := by
    simp only [resolveMetas, padMetas, if_pos hms]
    rcases Nat.le_total ms.length chunks.length with hle | hle
    · rw [List.take_of_length_le (by simp; omega), List.take_of_length_le hle]
    · have h0 : chunks.length - ms.length = 0 := by omega
      simp [h0]
  have hcond : (chunks.isEmpty || embeddings.isEmpty
      || (chunks.length != embeddings.length)) = false := by
    simp [List.isEmpty_eq_false, hc, he, hlen]
  refine ⟨hids, rfl, ?_, hmeta, ?_, rfl, ?_, ?_⟩
  · intro x hx
    rw [hids] at hx
    rcases List.mem_map.mp hx with ⟨k, hk, rfl⟩
    exact hfresh k (List.mem_range.mp hk)
  · rw [hmeta]
    simp [List.length_take]
    omega
  · simp [add_documents_to_store, hcond]
  · simp [add_documents_to_store, hcond]

/-- Claim C4 witness: three chunks with three embeddings, one caller id
(mismatched) and one metadata entry (mismatched): all three written ids
are freshly generated (the caller id "x" is not reused), the metadata is
padded to three entries with the empty mapping, and the add succeeds. -/
theorem c4_witness :
    (["c1", "c2", "c3"] : List String) ≠ []
      ∧ ([(1 : Int), 2, 3] : List Int) ≠ []
      ∧ (["c1", "c2", "c3"] : List String).length = [(1 : Int), 2, 3].length
      ∧ (["x"] : List String).length ≠ (["c1", "c2", "c3"] : List String).length
      ∧ ([[("k", "v")]] : List KVMeta).length ≠ (["c1", "c2", "c3"] : List String).length
      ∧ (∀ k : Nat, k < (["c1", "c2", "c3"] : List String).length
          → (fun _ => "gen") k ∉ (["x"] : List String))
      ∧ (resolveIds (fun _ => "gen") (["c1", "c2", "c3"] : List String).length (some ["x"])
            = genIds (fun _ => "gen") (["c1", "c2", "c3"] : List String).length
          ∧ resolveIds (fun _ => "gen") (["c1", "c2", "c3"] : List String).length none
            = genIds (fun _ => "gen") (["c1", "c2", "c3"] : List String).length
          ∧ (∀ x ∈ resolveIds (fun _ => "gen")
              (["c1", "c2", "c3"] : List String).length (some ["x"]), x ∉ (["x"] : List String))
          ∧ resolveMetas ([] : KVMeta) (["c1", "c2", "c3"] : List String).length
              (some [[("k", "v")]])
            = ([[("k", "v")]] : List KVMeta).take (["c1", "c2", "c3"] : List String).length
              ++ List.replicate
                ((["c1", "c2", "c3"] : List String).length - ([[("k", "v")]] : List KVMeta).length)
                ([] : KVMeta)
          ∧ (resolveMetas ([] : KVMeta) (["c1", "c2", "c3"] : List String).length
              (some [[("k", "v")]])).length = (["c1", "c2", "c3"] : List String).length
          ∧ resolveMetas ([] : KVMeta) (["c1", "c2", "c3"] : List String).length none
            = List.replicate (["c1", "c2", "c3"] : List String).length ([] : KVMeta)
          ∧ (add_documents_to_store (fun _ => "gen") ([] : KVMeta) ([] : Store Int KVMeta)
              "docs" ["c1", "c2", "c3"] [(1 : Int), 2, 3]
              (some [[("k", "v")]]) (some ["x"])).2 = .success
          ∧ (add_documents_to_store (fun _ => "gen") ([] : KVMeta) ([] : Store Int KVMeta)
              "docs" ["c1", "c2", "c3"] [(1 : Int), 2, 3] none none).2 = .success) :=
  ⟨by decide, by decide, by decide, by decide, by decide, by decide,
    c4_alignment_is_normalized (fun _ => "gen") ([] : KVMeta) ([] : Store Int KVMeta)
      "docs" ["c1", "c2", "c3"] [(1 : Int), 2, 3] ["x"] [[("k", "v")]]
      (by decide) (by decide) (by decide) (by decide) (by decide) (by decide)⟩

theorem splitNewP_inv {s ov : Nat} (st : ChunkState)
    (hinv : ∀ c ∈ st.all_chunks, c.length ≤ s) :
    ∀ c ∈ (splitNewP s ov st).all_chunks, c.length ≤ s := by
  unfold splitNewP
  by_cases h2 : st.current.length > s
  · rw [if_pos h2]
    intro c hc
    rcases List.mem_append.mp hc with hc | hc
    · exact hinv c hc
    · exact winList_length_le _ _ _ c hc
  · rw [if_neg h2]
    exact hinv

theorem stepParaP_inv {s ov : Nat} (st : ChunkState) (p : List Char)
    (hinv : ∀ c ∈ st.all_chunks, c.length ≤ s) :
    ∀ c ∈ (stepParaP s ov st p).all_chunks, c.length ≤ s := by
  unfold stepParaP
  by_cases h1 : st.current.length + p.length + 1 < s
  · simpa [h1] using hinv
  · rw [if_neg h1]
    exact splitNewP_inv _ (flushOldP_inv st p hinv)

theorem foldl_stepParaP_inv {s ov : Nat} (ps : List (List Char)) :
    ∀ st : ChunkState, (∀ c ∈ st.all_chunks, c.length ≤ s) →
      ∀ c ∈ (ps.foldl (stepParaP s ov) st).all_chunks, c.length ≤ s := by
  induction ps with
  | nil => intro st hinv; simpa using hinv
  | cons p ps ih =>
    intro st hinv
    rw [List.foldl_cons]
    exact ih _ (stepParaP_inv st p hinv)

theorem finalFlushP_bound {s ov : Nat} (st : ChunkState)
    (hinv : ∀ c ∈ st.all_chunks, c.length ≤ s) :
    ∀ c ∈ finalFlushP s ov st, c.length ≤ s := by
  unfold finalFlushP
  by_cases h1 : st.current.isEmpty
  · simpa [h1] using hinv
  · by_cases h2 : st.current.length > s
    · rw [if_neg h1, if_pos h2]
      intro c hc
      rcases List.mem_append.mp hc with hc | hc
      · exact hinv c hc
      · exact winList_length_le _ _ _ c hc
    · rw [if_neg h1, if_neg h2]
      intro c hc
      rcases List.mem_append.mp hc with hc | hc
      · exact hinv c hc
      · rw [List.mem_singleton.mp hc]
        omega

/-- Claim C2: for every input text and every valid configuration
(`0 ≤ chunk_overlap < chunk_size`, hence `chunk_size > 0`), the chunker
succeeds and every returned chunk is non-empty after trimming (not
whitespace-only) and has character length at most `chunk_size`. -/
theorem c2_chunks_nonblank_and_bounded (text : List Char) (chunk_size chunk_overlap : Nat)
    (h : chunk_overlap < chunk_size) :
    ∃ l, simple_chunker text chunk_size chunk_overlap = .ok l
      ∧ ∀ c ∈ l, pyStrip c ≠ [] ∧ c.length ≤ chunk_size := by
  refine ⟨chunkerP text chunk_size chunk_overlap, chunker_eq h text, ?_⟩
  intro c hc
  unfold chunkerP at hc
  by_cases ht : text.isEmpty = true
  · rw [if_pos ht] at hc
    simp at hc
  · rw [if_neg ht] at hc
    rcases List.mem_filter.mp hc with ⟨hmem, hpred⟩
    refine ⟨?_, finalFlushP_bound _ (foldl_stepParaP_inv _ _ (by simp)) c hmem⟩
    simpa using hpred

/-- Claim C2 witness: a concrete valid run with text "hello world" and the
default configuration. -/
theorem c2_witness :
    150 < 1000
      ∧ (∃ l, simple_chunker ("hello world".toList) 1000 150 = .ok l
          ∧ ∀ c ∈ l, pyStrip c ≠ [] ∧ c.length ≤ 1000) :=
  ⟨by decide, c2_chunks_nonblank_and_bounded ("hello world".toList) 1000 150 (by decide)⟩

theorem splitAux_mem_subset :
    ∀ (n : Nat) (l acc piece : List Char), l.length ≤ n → piece ∈ splitAux l acc →
      ∀ c ∈ piece, c ∈ l ∨ c ∈ acc := by
  intro n
  induction n with
  | zero =>
    intro l acc piece hlen hp c hc
    have hl : l = [] := List.length_eq_zero.mp (Nat.le_zero.mp hlen)
    subst hl
    simp only [splitAux, List.mem_singleton] at hp
    subst hp
    exact Or.inr (List.mem_reverse.mp hc)
  | succ n ih =>
    intro l acc piece hlen hp c hc
    rcases l with _ | ⟨a, rest⟩
    · simp only [splitAux, List.mem_singleton] at hp
      subst hp
      exact Or.inr (List.mem_reverse.mp hc)
    · rcases rest with _ | ⟨b, rest2⟩
      · simp only [splitAux, List.mem_singleton] at hp
        subst hp
        rcases List.mem_cons.mp (List.mem_reverse.mp hc) with rfl | hc2
        · exact Or.inl (by simp)
        · exact Or.inr hc2
      · by_cases hab : a = '\n' ∧ b = '\n'
        · rw [show splitAux (a :: b :: rest2) acc
              = if a = '\n' ∧ b = '\n' then acc.reverse :: splitAux rest2 []
                else splitAux (b :: rest2) (a :: acc) from rfl, if_pos hab] at hp
          rcases List.mem_cons.mp hp with rfl | hp2
          · exact Or.inr (List.mem_reverse.mp hc)
          · rcases ih rest2 [] piece (by simp at hlen; omega) hp2 c hc with h | h
            · exact Or.inl (by simp [h])
            · simp at h
        · rw [show splitAux (a :: b :: rest2) acc
              = if a = '\n' ∧ b = '\n' then acc.reverse :: splitAux rest2 []
                else splitAux (b :: rest2) (a :: acc) from rfl, if_neg hab] at hp
          rcases ih (b :: rest2) (a :: acc) piece (by simp at hlen ⊢; omega) hp c hc with h | h
          · exact Or.inl (List.mem_cons_of_mem a h)
          · rcases List.mem_cons.mp h with rfl | h2
            · exact Or.inl (by simp)
            · exact Or.inr h2

theorem pySplit_mem_subset (l piece : List Char) (hp : piece ∈ pySplit l) :
    ∀ c ∈ piece, c ∈ l := by
  intro c hc
  rcases splitAux_mem_subset l.length l [] piece (Nat.le_refl _) hp c hc with h | h
  · exact h
  · simp at h

theorem pyStrip_eq_nil_of_space (l : List Char) (h : ∀ c ∈ l, pyIsSpace c = true) :
    pyStrip l = [] := by
  unfold pyStrip
  have h1 : l.dropWhile pyIsSpace = [] := List.dropWhile_eq_nil_iff.mpr h
  simp [h1]

/-- Claim C10: a non-empty input consisting only of whitespace characters
(blank lines included) chunks to the empty list, for every size and
overlap: no error is raised and no whitespace chunk is emitted. -/
theorem c10_whitespace_only_text_chunks_to_nil (text : List Char)
    (chunk_size chunk_overlap : Nat) (hne : text ≠ [])
    (hws : ∀ c ∈ text, pyIsSpace c = true) :
    simple_chunker text chunk_size chunk_overlap = .ok [] := by
  have hpar : pyParagraphs text = [] := by
    unfold pyParagraphs
    rw [List.filter_eq_nil_iff]
    intro a ha
    rcases List.mem_map.mp ha with ⟨piece, hpiece, rfl⟩
    have hnil : pyStrip piece = [] :=
      pyStrip_eq_nil_of_space piece
        (fun c hc => hws c (pySplit_mem_subset text piece hpiece c hc))
    simp [hnil]
  have ht : text.isEmpty = false := by simpa [List.isEmpty_eq_false] using hne
  unfold simple_chunker
  rw [if_neg (by simp [ht]), hpar]
  rfl

/-- Claim C10 witness: four whitespace characters including a blank line
chunk to the empty list under the default configuration. -/
theorem c10_witness :
    (" \n\n ".toList ≠ [])
      ∧ (∀ c ∈ " \n\n ".toList, pyIsSpace c = true)
      ∧ simple_chunker (" \n\n ".toList) 1000 150 = .ok [] :=
  ⟨by decide, by decide,
    c10_whitespace_only_text_chunks_to_nil (" \n\n ".toList) 1000 150
      (by decide) (by decide)⟩

theorem dropWhile_nonspace_eq_self (m : List Char) (hm : ∀ c ∈ m, pyIsSpace c = false) :
    m.dropWhile pyIsSpace = m := by
  cases m with
  | nil => rfl
  | cons a t =>
    rw [List.dropWhile_cons, hm a (by simp)]
    simp

theorem pyStrip_eq_self_of_nonspace (l : List Char) (h : ∀ c ∈ l, pyIsSpace c = false) :
    pyStrip l = l := by
  unfold pyStrip
  rw [dropWhile_nonspace_eq_self l h,
    dropWhile_nonspace_eq_self l.reverse (fun c hc => h c (List.mem_reverse.mp hc)),
    List.reverse_reverse]

theorem splitAux_no_newline (l : List Char) :
    ∀ acc, (∀ c ∈ l, c ≠ '\n') → splitAux l acc = [acc.reverse ++ l] := by
  induction l with
  | nil => intro acc h; simp [splitAux]
  | cons a rest ih =>
    intro acc h
    rcases rest with _ | ⟨b, rest2⟩
    · simp [splitAux]
    · have hab : ¬(a = '\n' ∧ b = '\n') := fun hc => h a (by simp) hc.1
      rw [show splitAux (a :: b :: rest2) acc
          = if a = '\n' ∧ b = '\n' then acc.reverse :: splitAux rest2 []
            else splitAux (b :: rest2) (a :: acc) from rfl, if_neg hab]
      rw [ih (a :: acc) (fun c hc => h c (List.mem_cons_of_mem a hc))]
      simp

theorem pySplit_no_newline (l : List Char) (h : ∀ c ∈ l, c ≠ '\n') : pySplit l = [l] := by
  unfold pySplit
  rw [splitAux_no_newline l [] h]
  simp

/-- A non-empty text with no whitespace at all is a single paragraph that
survives trimming unchanged. -/
theorem pyParagraphs_nonspace (text : List Char) (hne : text ≠ [])
    (hns : ∀ c ∈ text, pyIsSpace c = false) : pyParagraphs text = [text] := by
  have hnn : ∀ c ∈ text, c ≠ '\n' := by
    intro c hc hc2
    subst hc2
    exact absurd (hns _ hc) (by decide)
  unfold pyParagraphs
  rw [pySplit_no_newline text hnn]
  simp [pyStrip_eq_self_of_nonspace text hns, List.isEmpty_eq_false, hne]

theorem rangePos_length (n d : Nat) : (rangePos n d).length = (n + d - 1) / d := by
  simp [rangePos]

theorem rangePos_mem_lt {n d : Nat} (hd : 0 < d) : ∀ i ∈ rangePos n d, i < n := by
  intro i hi
  rcases List.mem_map.mp hi with ⟨k, hk, rfl⟩
  have hk2 : k + 1 ≤ (n + d - 1) / d := List.mem_range.mp hk
  have h3 : (k + 1) * d ≤ n + d - 1 := (Nat.le_div_iff_mul_le hd).mp hk2
  rw [Nat.succ_mul] at h3
  omega

/-- On whitespace-free text every hard-split window is non-empty and
whitespace-free, so the final filter keeps all of them. -/
theorem winList_all_kept {s ov : Nat} (text : List Char) (h : ov < s)
    (hns : ∀ c ∈ text, pyIsSpace c = false) :
    (winList text s ov).filter (fun c => !(pyStrip c).isEmpty) = winList text s ov := by
  rw [List.filter_eq_self]
  intro w hw
  rcases List.mem_map.mp hw with ⟨i, hi, rfl⟩
  have hilt : i < text.length := rangePos_mem_lt (by omega) _ hi
  have hdne : text.drop i ≠ [] := by
    intro h0
    have h2 := List.length_drop i text
    rw [h0] at h2
    simp at h2
    omega
  have hwne : (text.drop i).take s ≠ [] := by
    intro h0
    rcases List.take_eq_nil_iff.mp h0 with h0 | h0
    · omega
    · exact hdne h0
  have hsub : ∀ c ∈ (text.drop i).take s, pyIsSpace c = false :=
    fun c hc => hns c (List.drop_subset _ _ (List.take_subset _ _ hc))
  simp [pyStrip_eq_self_of_nonspace _ hsub, List.isEmpty_eq_false, hwne]

theorem stepParaP_nil (s ov : Nat) (p : List Char) :
    stepParaP s ov ⟨[], []⟩ p
      = if p.length + 1 < s then ⟨[], p⟩
        else if p.length > s then ⟨winList p s ov, []⟩ else ⟨[], p⟩ := by
  unfold stepParaP flushOldP splitNewP
  simp

theorem finalFlushP_nil_current (s ov : Nat) (ws : List (List Char)) :
    finalFlushP s ov ⟨ws, []⟩ = ws := by
  simp [finalFlushP]

theorem finalFlushP_buffer (s ov : Nat) (p : List Char) (hne : p ≠ [])
    (hle : ¬ p.length > s) : finalFlushP s ov ⟨[], p⟩ = [p] := by
  unfold finalFlushP
  rw [if_neg (by simp [List.isEmpty_eq_false, hne]), if_neg hle]
  simp

/-- Chunk count of the chunker on whitespace-free text: none if empty, one
chunk if the text fits, otherwise one chunk per hard-split window. -/
theorem chunkerP_count_nonspace {s ov : Nat} (h : ov < s) (text : List Char)
    (hns : ∀ c ∈ text, pyIsSpace c = false) :
    (chunkerP text s ov).length = countFor text.length s ov := by
  rcases eq_or_ne text [] with rfl | hne
  · simp [chunkerP, countFor]
  · have hn1 : 0 < text.length := List.length_pos.mpr hne
    have ht : ¬(text.isEmpty = true) := by simp [List.isEmpty_eq_false, hne]
    have hpar := pyParagraphs_nonspace text hne hns
    have hkept : ([text] : List (List Char)).filter (fun c => !(pyStrip c).isEmpty)
        = [text] := by
      simp [pyStrip_eq_self_of_nonspace text hns, List.isEmpty_eq_false, hne]
    unfold chunkerP
    rw [if_neg ht, hpar]
    rw [show ([text] : List (List Char)).foldl (stepParaP s ov) ⟨[], []⟩
        = stepParaP s ov ⟨[], []⟩ text from rfl, stepParaP_nil]
    by_cases h1 : text.length + 1 < s
    · rw [if_pos h1, finalFlushP_buffer s ov text hne (by omega), hkept]
      unfold countFor
      rw [if_neg (by omega), if_pos (by omega)]
      rfl
    · rw [if_neg h1]
      by_cases h2 : text.length > s
      · rw [if_pos h2, finalFlushP_nil_current, winList_all_kept text h hns]
        unfold winList
        rw [List.length_map, rangePos_length]
        unfold countFor
        rw [if_neg (by omega), if_neg (by omega)]
      · rw [if_neg h2, finalFlushP_buffer s ov text hne h2, hkept]
        unfold countFor
        rw [if_neg (by omega), if_pos (by omega)]
        rfl

theorem countFor_antitone {n s1 s2 ov : Nat} (h2 : ov < s2) (h12 : s2 ≤ s1) :
    countFor n s1 ov ≤ countFor n s2 ov := by
  unfold countFor
  rcases eq_or_ne n 0 with rfl | hn
  · simp
  · rw [if_neg hn, if_neg hn]
    by_cases hle2 : n ≤ s2
    · rw [if_pos (le_trans hle2 h12), if_pos hle2]
    · rw [if_neg hle2]
      have hd2 : 0 < s2 - ov := by omega
      by_cases hle1 : n ≤ s1
      · rw [if_pos hle1, Nat.le_div_iff_mul_le hd2]
        omega
      · rw [if_neg hle1]
        have hd1 : 0 < s1 - ov := by omega
        have e1 : n + (s1 - ov) - 1 = (n - 1) + (s1 - ov) := by omega
        have e2 : n + (s2 - ov) - 1 = (n - 1) + (s2 - ov) := by omega
        rw [e1, e2, Nat.add_div_right _ hd1, Nat.add_div_right _ hd2]
        have hdiv : (n - 1) / (s1 - ov) ≤ (n - 1) / (s2 - ov) :=
          Nat.div_le_div_left (by omega) hd2
        omega

/-- Claim C3 (amended): for texts consisting only of non-whitespace
characters, with a fixed overlap and valid sizes `s1 > s2 > overlap`, the
chunk count at the smaller size `s2` is at least the count at `s1`. The
original unrestricted claim is refuted by `c3_counterexample`: all-space
hard-split windows are dropped by the final filter, and a smaller size
can produce more such dropped windows. -/
theorem c3_amended_count_antitone (text : List Char) (s1 s2 ov : Nat)
    (h2 : ov < s2) (h12 : s2 < s1) (hns : ∀ c ∈ text, pyIsSpace c = false) :
    ∃ l1 l2, simple_chunker text s1 ov = .ok l1 ∧ simple_chunker text s2 ov = .ok l2
      ∧ l1.length ≤ l2.length := by
  have h1 : ov < s1 := lt_trans h2 h12
  refine ⟨chunkerP text s1 ov, chunkerP text s2 ov, chunker_eq h1 text,
    chunker_eq h2 text, ?_⟩
  rw [chunkerP_count_nonspace h1 text hns, chunkerP_count_nonspace h2 text hns]
  exact countFor_antitone h2 (le_of_lt h12)

/-- Claim C3 (amended) witness: the whitespace-free text "abcdefgh" with
overlap 1 and sizes 5 > 3 gives 2 and 4 chunks respectively. -/
theorem c3_witness :
    1 < 3 ∧ 3 < 5
      ∧ (∀ c ∈ "abcdefgh".toList, pyIsSpace c = false)
      ∧ (∃ l1 l2, simple_chunker ("abcdefgh".toList) 5 1 = .ok l1
          ∧ simple_chunker ("abcdefgh".toList) 3 1 = .ok l2
          ∧ l1.length ≤ l2.length) :=
  ⟨by decide, by decide, by decide,
    c3_amended_count_antitone ("abcdefgh".toList) 5 3 1 (by decide) (by decide) (by decide)⟩

/-- Claim C8: hard-splitting any single 2500-character paragraph with
`chunk_size = 1000` and `chunk_overlap = 150` produces exactly
`ceil(2500 / 850) = 3` windows, starting at offsets 0, 850 and 1700 (each
850 characters after the previous one), each of length at most 1000; the
full chunker on such a paragraph returns exactly these windows (subject
only to the final all-whitespace filter of line 38). -/
theorem c8_hard_split_single_2500 (p : List Char) (hlen : p.length = 2500)
    (hpar : pyParagraphs p = [p]) :
    rangePos 2500 850 = [0, 850, 1700]
      ∧ hardSplitWindows p 1000 150
        = .ok [p.take 1000, (p.drop 850).take 1000, (p.drop 1700).take 1000]
      ∧ (∀ w ∈ [p.take 1000, (p.drop 850).take 1000, (p.drop 1700).take 1000],
          w.length ≤ 1000)
      ∧ simple_chunker p 1000 150
        = .ok ([p.take 1000, (p.drop 850).take 1000, (p.drop 1700).take 1000].filter
            (fun c => !(pyStrip c).isEmpty)) := by
  have hr : rangePos 2500 850 = [0, 850, 1700] := by decide
  have hwl : winList p 1000 150
      = [p.take 1000, (p.drop 850).take 1000, (p.drop 1700).take 1000] := by
    unfold winList
    rw [hlen, show (1000 : Nat) - 150 = 850 from rfl, hr]
    simp
  have hne : p ≠ [] := by
    intro h0
    rw [h0] at hlen
    simp at hlen
  refine ⟨hr, ?_, ?_, ?_⟩
  · rw [hardSplitWindows_of_lt (by omega) p, hwl]
  · intro w hw
    rcases List.mem_cons.mp hw with rfl | hw
    · exact List.length_take_le _ _
    rcases List.mem_cons.mp hw with rfl | hw
    · exact List.length_take_le _ _
    rcases List.mem_cons.mp hw with rfl | hw
    · exact List.length_take_le _ _
    · simp at hw
  · rw [chunker_eq (by omega : (150 : Nat) < 1000) p]
    unfold chunkerP
    rw [if_neg (by simp [List.isEmpty_eq_false, hne]), hpar]
    rw [show ([p] : List (List Char)).foldl (stepParaP 1000 150) ⟨[], []⟩
        = stepParaP 1000 150 ⟨[], []⟩ p from rfl, stepParaP_nil]
    rw [if_neg (by omega), if_pos (by omega), finalFlushP_nil_current, hwl]

/-- Claim C8 witness: the concrete 2500-character paragraph of letters
`a`, on which the three windows have lengths 1000, 1000 and 800. -/
theorem c8_witness :
    (List.replicate 2500 'a').length = 2500
      ∧ pyParagraphs (List.replicate 2500 'a') = [List.replicate 2500 'a']
      ∧ (rangePos 2500 850 = [0, 850, 1700]
        ∧ hardSplitWindows (List.replicate 2500 'a') 1000 150
          = .ok [(List.replicate 2500 'a').take 1000,
              ((List.replicate 2500 'a').drop 850).take 1000,
              ((List.replicate 2500 'a').drop 1700).take 1000]
        ∧ (∀ w ∈ [(List.replicate 2500 'a').take 1000,
              ((List.replicate 2500 'a').drop 850).take 1000,
              ((List.replicate 2500 'a').drop 1700).take 1000], w.length ≤ 1000)
        ∧ simple_chunker (List.replicate 2500 'a') 1000 150
          = .ok ([(List.replicate 2500 'a').take 1000,
              ((List.replicate 2500 'a').drop 850).take 1000,
              ((List.replicate 2500 'a').drop 1700).take 1000].filter
                (fun c => !(pyStrip c).isEmpty))) := by
  have h1 : (List.replicate 2500 'a').length = 2500 := by
    rw [List.length_replicate]
  have hne : (List.replicate 2500 'a') ≠ ([] : List Char) := by
    intro h0
    have h2 := congrArg List.length h0
    rw [List.length_replicate, List.length_nil] at h2
    exact absurd h2 (by omega)
  have h2 : pyParagraphs (List.replicate 2500 'a') = [List.replicate 2500 'a'] :=
    pyParagraphs_nonspace _ hne
      (fun c hc => by rw [List.eq_of_mem_replicate hc]; rfl)
  exact ⟨h1, h2, c8_hard_split_single_2500 _ h1 h2⟩
